import Mathlib

/-!
Verification development for `policy_dbtools/dbtools.py` (ONEcampaign/policy_dbtools).

The Python module is shallowly embedded:

* the config store (`config.ini` manipulated through Python `configparser`) is a
  `ConfigFile := Option (Option Sec)`: `none` means the file does not exist,
  `some none` an existing file without a `[MONGODB]` section, `some (some sec)`
  a file whose `[MONGODB]` section holds the association list `sec`;
* Python `configparser`'s default `BasicInterpolation` is modelled faithfully:
  values are validated on assignment (a stray `%` raises `ValueError`) and
  interpolated on read (`%%` collapses to `%`, `%(name)s` is a reference);
* Python exceptions become the `PyErr` sum type and fallible code returns
  `Except PyErr _`;
* the MongoDB database is an association list from collection names to
  document lists, with `rename` / `create` / `drop` / ordered `bulk_write`
  given their server semantics; a possible mid-bulk failure is injected by an
  explicit `failAt` parameter.
-/

/-- Python exception values, as far as this module distinguishes them. -/
inductive PyErr where
  /-- Python `ValueError(msg)`. -/
  | valueError (msg : String)
  /-- Python `KeyError(key)`. -/
  | keyError (key : String)
  /-- Python `configparser.NoSectionError(section)`. -/
  | noSectionError (sec : String)
  /-- Python `configparser` interpolation-shape error. -/
  | interpolationFormatError
  /-- Python `configparser.InterpolationDepthError`. -/
  | interpolationDepthError
  /-- Python `configparser.InterpolationMissingOptionError(name)`. -/
  | interpolationMissingOption (name : String)
  /-- Python `AttributeError(msg)`. -/
  | attributeError (msg : String)
  /-- Error `pymongo.errors.OperationFailure(msg)` from the server. -/
  | operationFailure (msg : String)
  /-- Python `pymongo.errors.InvalidOperation(msg)`, raised client-side. -/
  | invalidOperation (msg : String)
  /-- a `pymongo` bulk-write failure (e.g. duplicate key) raised by `bulk_write` -/
  | bulkWriteError
deriving DecidableEq, Repr

/-- The contents of one `configparser` section: an association list from option
names (stored lower-cased by `optionxform`) to raw values. -/
abbrev Sec := List (String × String)

/-- ASCII lower-casing of one character (`str.lower` restricted to the ASCII
range, which covers every option name this module uses). -/
def charLower (c : Char) : Char :=
  if 65 ≤ c.toNat ∧ c.toNat ≤ 90 then Char.ofNat (c.toNat + 32) else c

/-- Model of `ConfigParser.optionxform`: option names are lower-cased. -/
def optionxform (k : String) : String := String.mk (k.data.map charLower)

/-- Store `k ↦ v` in a section: update in place if present, else append
(Python dict semantics). -/
def secSet (s : Sec) (k v : String) : Sec :=
  match s with
  | [] => [(k, v)]
  | (k', v') :: rest => if k' = k then (k, v) :: rest else (k', v') :: secSet rest k v

/-- Raw (uninterpolated) lookup in a section. -/
def secGet (s : Sec) (k : String) : Option String :=
  match s with
  | [] => none
  | (k', v') :: rest => if k' = k then some v' else secGet rest k

/-- Python `str.strip` whitespace characters (the ASCII ones; the values this
module stores are ASCII). -/
def isPyWhitespace (c : Char) : Bool :=
  c = ' ' || c = '\t' || c = '\n' || c = '\r' || c = '\x0b' || c = '\x0c'

/-- Python `str.lstrip()` on a character list. -/
def lstripChars (l : List Char) : List Char := l.dropWhile isPyWhitespace

/-- Python `str.rstrip()` on a character list. -/
def rstripChars (l : List Char) : List Char := (l.reverse.dropWhile isPyWhitespace).reverse

/-- Python `str.strip()` on a character list. -/
def stripChars (l : List Char) : List Char := rstripChars (lstripChars l)

/-- Split a value into its physical lines at newlines (the file writer indents
every line after the first with a tab; the reader strips that again). -/
def splitLines : List Char → List (List Char)
  | [] => [[]]
  | c :: rest =>
    if c = '\n' then [] :: splitLines rest
    else
      match splitLines rest with
      | [] => [[c]]
      | seg :: segs => (c :: seg) :: segs

/-- Rejoin physical lines with newlines (`_join_multiline_values`). -/
def joinLines : List (List Char) → List Char
  | [] => []
  | [seg] => seg
  | seg :: segs => seg ++ '\n' :: joinLines segs

/-- Whether a (stripped) continuation line is a full-line comment, which the
reader drops (`#` and `;` are the default comment prefixes). -/
def isCommentLine : List Char → Bool
  | '#' :: _ => true
  | ';' :: _ => true
  | _ => false

/-- The value transformation performed by writing a config value to disk and
reading it back: `ConfigParser.write` emits the value with later lines
tab-indented; `ConfigParser._read` strips every physical line (the option
line's value via `optval.strip()`, continuation lines via `line.strip()`,
whitespace-only lines becoming empty value lines) and drops full-line
comments; `_join_multiline_values` rejoins with newlines and right-strips the
result. Carriage returns are outside this model: text-mode universal newlines
would re-split such a value into unparseable lines, so the theorems below
restrict to values without them. -/
def fileRoundTrip (v : String) : String :=
  match (splitLines v.data).map stripChars with
  | [] => ""
  | first :: rest =>
    String.mk (rstripChars (joinLines
      (first :: rest.filter (fun seg => !(isCommentLine seg)))))

/-- Reading the `[MONGODB]` section back from the file (`config.read`): every
stored value comes back `fileRoundTrip`-normalized. (Option names here are
plain lower-case identifiers, which round-trip unchanged.) -/
def readSec (s : Sec) : Sec := s.map (fun kv => (kv.1, fileRoundTrip kv.2))

/-- Values that the on-disk serialization keeps verbatim. -/
def serializationClean (v : String) : Prop :=
  '\r' ∉ v.data ∧ fileRoundTrip v = v

instance (v : String) : Decidable (serializationClean v) :=
  inferInstanceAs (Decidable ('\r' ∉ v.data ∧ fileRoundTrip v = v))

/-- Model of `value.replace("%%", "")`, the first step of
`BasicInterpolation.before_set`: delete leftmost non-overlapping `%%` pairs. -/
def stripDoublePercent : List Char → List Char
  | [] => []
  | [c] => [c]
  | c :: d :: rest =>
    if c = '%' ∧ d = '%' then stripDoublePercent rest
    else c :: stripDoublePercent (d :: rest)

/-- Match the tail of `_KEYCRE = %\(([^)]+)\)s` once the leading `%(` has been
consumed: a non-empty run of non-`)` characters (its length is the length of
`takeWhile (· ≠ ')')`), then `)s`. Returns the reference name and the
remainder of the input. -/
def parseRef (l : List Char) : Option (String × List Char) :=
  if 0 < (l.takeWhile (fun c => c ≠ ')')).length ∧
      l.get? (l.takeWhile (fun c => c ≠ ')')).length = some ')' ∧
      l.get? ((l.takeWhile (fun c => c ≠ ')')).length + 1) = some 's' then
    some (String.mk (l.take (l.takeWhile (fun c => c ≠ ')')).length),
      l.drop ((l.takeWhile (fun c => c ≠ ')')).length + 2))
  else none

theorem parseRef_length {l : List Char} {n : String} {t : List Char}
    (h : parseRef l = some (n, t)) : t.length < l.length := by
  unfold parseRef at h
  split at h
  · rename_i hc
    obtain ⟨hk, -, hks⟩ := hc
    simp only [Option.some.injEq, Prod.mk.injEq] at h
    obtain ⟨-, rfl⟩ := h
    have hlt : (l.takeWhile (fun c => c ≠ ')')).length + 1 < l.length :=
      List.get?_eq_some.mp hks |>.1
    simp only [List.length_drop]
    omega
  · exact absurd h (by simp)

/-- Does `_KEYCRE` match right after a `%`? `l` is the input from the
character following the `%`; on a match, return the input after the whole
`%(name)s` occurrence. -/
def refMatchAt (l : List Char) : Option (List Char) :=
  match l with
  | '(' :: rest2 =>
    match parseRef rest2 with
    | some (_, tail) => some tail
    | none => none
  | _ => none

/-- Model of `_KEYCRE.sub("", value)`: delete every `%(name)s` occurrence, scanning left
to right (the second step of `BasicInterpolation.before_set`). Fuelled by the
input length, which bounds the number of scanning steps. -/
def stripRefsAux : Nat → List Char → List Char
  | 0, l => l
  | _ + 1, [] => []
  | fuel + 1, c :: rest =>
    if c = '%' then
      match refMatchAt rest with
      | some tail => stripRefsAux fuel tail
      | none => c :: stripRefsAux fuel rest
    else c :: stripRefsAux fuel rest

/-- Model of `_KEYCRE.sub("", value)` with enough fuel for the whole input. -/
def stripRefs (l : List Char) : List Char := stripRefsAux l.length l

/-- Predicate for when `BasicInterpolation.before_set` succeeds iff deleting `%%` pairs and
`%(name)s` references leaves no `%` behind. -/
def beforeSetOk (v : String) : Bool :=
  !((stripRefs (stripDoublePercent v.data)).contains '%')

/-- Constant `MAX_INTERPOLATION_DEPTH` in CPython's configparser. -/
def maxInterpolationDepth : Nat := 10

/-- Model of `BasicInterpolation._interpolate_some`: expand a raw value at read time.
`%%` yields `%`; `%(name)s` looks the (lower-cased) name up in the section and
splices in its interpolated expansion; any other `%` raises; nesting deeper
than `maxInterpolationDepth` raises. -/
def interpolateSome (sec : Sec) (depth : Nat) : List Char → Except PyErr (List Char)
  | [] => .ok []
  | c :: rest =>
    if c = '%' then
      match rest with
      | '%' :: rest2 =>
        match interpolateSome sec depth rest2 with
        | .error e => .error e
        | .ok t => .ok ('%' :: t)
      | '(' :: rest2 =>
        match href : parseRef rest2 with
        | none => .error .interpolationFormatError
        | some (name, tail) =>
          match secGet sec (optionxform name) with
          | none => .error (.interpolationMissingOption (optionxform name))
          | some v =>
            let expanded : Except PyErr (List Char) :=
              if v.data.contains '%' then
                if maxInterpolationDepth < depth + 1 then .error .interpolationDepthError
                else interpolateSome sec (depth + 1) v.data
              else .ok v.data
            match expanded with
            | .error e => .error e
            | .ok vi =>
              match interpolateSome sec depth tail with
              | .error e => .error e
              | .ok ti => .ok (vi ++ ti)
      | _ => .error .interpolationFormatError
    else
      match interpolateSome sec depth rest with
      | .error e => .error e
      | .ok t => .ok (c :: t)
termination_by l => (maxInterpolationDepth + 1 - depth, l.length)
decreasing_by
  · exact Prod.Lex.right _ (by simp only [List.length_cons]; omega)
  · exact Prod.Lex.left _ _ (by simp only [maxInterpolationDepth] at *; omega)
  · exact Prod.Lex.right _
      (by have := parseRef_length href; simp only [List.length_cons]; omega)
  · exact Prod.Lex.right _ (by simp only [List.length_cons]; omega)

/-- Read an option from the `[MONGODB]` section through
`config["MONGODB"][key]`: raises `KeyError` when absent, interpolates the
stored raw value. -/
def getMongoOption : Option Sec → String → Except PyErr String
  | none, _ => .error (.keyError "MONGODB")
  | some sec, k =>
    match secGet sec (optionxform k) with
    | none => .error (.keyError k)
    | some v =>
      match interpolateSome sec 1 v.data with
      | .error e => .error e
      | .ok l => .ok (String.mk l)

/-- Model of `config.has_option("MONGODB", k)`: raises `NoSectionError` when the section
is missing (the documented `False` is not what the CPython code does). -/
def hasOptionMongo : Option Sec → String → Except PyErr Bool
  | none, _ => .error (.noSectionError "MONGODB")
  | some sec, k => .ok ((secGet sec (optionxform k)).isSome)

/-- Model of `config.set` through `config["MONGODB"][k] = v`: validates the value with
`before_set`, then stores it raw. -/
def secSetChecked (sec : Sec) (k v : String) : Except PyErr Sec :=
  if beforeSetOk v then .ok (secSet sec (optionxform k) v)
  else .error (.valueError ("invalid interpolation syntax in " ++ v))

/-- The state of the config file on disk: `none` when the file does not exist,
`some mongodb` when it exists with `mongodb` the `[MONGODB]` section contents
(or `none` when the file has no such section). -/
abbrev ConfigFile := Option (Option Sec)

/-- Model of `set_config(username, password, cluster, db)` from `dbtools.py`: read the
file, create an empty `[MONGODB]` section only when the file does not exist,
assign each provided field (raising `KeyError("MONGODB")` when the section is
missing), and write the result back. -/
def set_config (file : ConfigFile) (username password cluster db : Option String) :
    Except PyErr ConfigFile :=
  -- config.read(CONFIG_PATH); if not os.path.exists(CONFIG_PATH): config["MONGODB"] = {}
  let sections : Option Sec :=
    match file with
    | none => some []
    | some s => s.map readSec
  let setField (sections : Option Sec) (key : String) (v : Option String) :
      Except PyErr (Option Sec) :=
    match v with
    | none => .ok sections
    | some v =>
      match sections with
      | none => .error (.keyError "MONGODB")
      | some sec =>
        match secSetChecked sec key v with
        | .error e => .error e
        | .ok sec' => .ok (some sec')
  match setField sections "MONGO_USERNAME" username with
  | .error e => .error e
  | .ok s1 =>
    match setField s1 "MONGO_PASSWORD" password with
    | .error e => .error e
    | .ok s2 =>
      match setField s2 "MONGO_CLUSTER" cluster with
      | .error e => .error e
      | .ok s3 =>
        match setField s3 "MONGO_DB" db with
        | .error e => .error e
        | .ok s4 => .ok (some s4)

/-- The credential triple `_check_credentials` returns. -/
structure Credentials where
  username : String
  password : String
  cluster : String
deriving DecidableEq, Repr

/-- The `ValueError` message `_check_credentials` raises when the config file
is absent. -/
def noConfigMsg : String :=
  "No credentials provided and config.ini file does not exist." ++
    "Provide credentials or set credentials using set_config()."

/-- The `ValueError` message `_check_credentials` raises when the config file
lacks the named field. -/
def missingMsg (field : String) : String :=
  "Missing credentials. `" ++ field ++ "` must provided or set using set_config()."

/-- Whether a `PyErr` is a Python `ValueError` (the kind of error
`_check_credentials` uses to name a missing field). -/
def PyErr.isValueError : PyErr → Bool
  | .valueError _ => true
  | _ => false

/-- Model of one field block of `_check_credentials` (the three `if <field> is
None:` blocks at dbtools.py:122-147 are this block at option `key`, field
name `field`): a provided call-site value is returned as is; otherwise the
option is looked up with `has_option` and read (interpolated) from the
section, and its absence raises the `ValueError` naming the field. -/
def checkConfigField (sections : Option Sec) (key field : String)
    (given : Option String) : Except PyErr String :=
  match given with
  | some v => .ok v
  | none =>
    match hasOptionMongo sections key with
    | .error e => .error e
    | .ok false => .error (.valueError (missingMsg field))
    | .ok true => getMongoOption sections key

/-- Model of `_check_credentials(username, password, cluster)` from `dbtools.py`:
call-site arguments win; missing ones are resolved, in the order username,
password, cluster, from the `[MONGODB]` section of the config file (read from
disk, hence `readSec`-normalized). -/
def _check_credentials (file : ConfigFile) (username password cluster : Option String) :
    Except PyErr Credentials :=
  if username.isNone || password.isNone || cluster.isNone then
    match file with
    | none => .error (.valueError noConfigMsg)
    | some sections =>
      -- config.read(CONFIG_PATH)
      let sections := sections.map readSec
      match checkConfigField sections "MONGO_USERNAME" "username" username with
      | .error e => .error e
      | .ok u =>
        match checkConfigField sections "MONGO_PASSWORD" "password" password with
        | .error e => .error e
        | .ok p =>
          match checkConfigField sections "MONGO_CLUSTER" "cluster" cluster with
          | .error e => .error e
          | .ok c => .ok ⟨u, p, c⟩
  else
    .ok ⟨username.getD "", password.getD "", cluster.getD ""⟩

/-- Specification-side resolution of one credential field, following the
spec's `resolve` contract word for word: the call-site value wins; an omitted
field is filled with exactly the value stored in the config store; a missing
store entry fails with the error naming that specific field. Declared only to
be compared against the code model in the C5 theorem. -/
def resolveSpecField (sec : Sec) (given : Option String) (key field : String) :
    Except PyErr String :=
  match given with
  | some v => .ok v
  | none =>
    match secGet sec (optionxform key) with
    | some v => .ok v
    | none => .error (.valueError (missingMsg field))

/-- The database-name resolution in `AuthenticatedCursor.__init__` (after the
credential check): an explicitly passed `db_name` wins; otherwise `MONGO_DB`
is read from the `[MONGODB]` section of the config file; otherwise a
`ValueError` is raised. (`set_db`'s existence check runs against the live
server and is outside this model.) -/
def resolveDbName (file : ConfigFile) (db_name : Option String) :
    Except PyErr String :=
  let sections : Option Sec :=
    match file with
    | none => none
    | some s => s.map readSec
  match db_name with
  | some d => .ok d
  | none =>
    match hasOptionMongo sections "MONGO_DB" with
    | .error e => .error e
    | .ok true => getMongoOption sections "MONGO_DB"
    | .ok false =>
      .error (.valueError
        "No database name provided. `db_name` must provided or set in config file using set_config().")

/-! ### Connection-string construction (`_create_uri`, `urllib.parse.quote_plus`) -/

/-- UTF-8 encoding of one character, as a list of byte values. -/
def utf8Bytes (c : Char) : List Nat :=
  let n := c.toNat
  if n < 128 then [n]
  else if n < 2048 then [192 + n / 64, 128 + n % 64]
  else if n < 65536 then [224 + n / 4096, 128 + n / 64 % 64, 128 + n % 64]
  else [240 + n / 262144, 128 + n / 4096 % 64, 128 + n / 64 % 64, 128 + n % 64]

/-- Upper-case hex digit, as used by `urllib.parse.quote`. -/
def hexDigitChar (n : Nat) : Char :=
  if n < 10 then Char.ofNat (48 + n) else Char.ofNat (55 + n)

/-- Predicate `_ALWAYS_SAFE` of `urllib.parse` on byte values: ASCII letters,
digits, and `_ . - ~` are emitted unescaped. -/
def isAlwaysSafe (b : Nat) : Bool :=
  (65 ≤ b && b ≤ 90) || (97 ≤ b && b ≤ 122) || (48 ≤ b && b ≤ 57) ||
    b == 95 || b == 46 || b == 45 || b == 126

/-- How `quote_plus` renders one byte: space becomes `+`, safe bytes pass
through, everything else is `%XX` with upper-case hex. -/
def quotePlusByte (b : Nat) : List Char :=
  if b == 32 then ['+']
  else if isAlwaysSafe b then [Char.ofNat b]
  else ['%', hexDigitChar (b / 16), hexDigitChar (b % 16)]

/-- Model of `urllib.parse.quote_plus` with default arguments: UTF-8 encode, then
escape every non-safe byte, rendering spaces as `+`. -/
def quote_plus (s : String) : String :=
  String.mk ((((s.data.map utf8Bytes).flatten).map quotePlusByte).flatten)

/-- Model of `_create_uri(cluster, username, password)` from `dbtools.py`. -/
def _create_uri (cluster username password : String) : String :=
  "mongodb+srv://" ++ quote_plus username ++ ":" ++ quote_plus password ++
    "@" ++ cluster ++ ".sln0w.mongodb.net/?retryWrites=true&w=majority"

/-! ### `AuthenticatedCursor.connect` / `close` -/

/-- The only state of the connection handle the claims are about: the
`_client` attribute, `none` when no client is held. The payload of a live
client is irrelevant here, so it is a type parameter. -/
abbrev ClientRef (Client : Type) := Option Client

/-- Model of `AuthenticatedCursor.close`: `self._client.close()` then
`self._client = None`. When `_client` is `None`, the attribute access
`None.close` raises `AttributeError` and the state is left unchanged. -/
def AuthenticatedCursor.close {Client : Type} (client : ClientRef Client) :
    Except PyErr (ClientRef Client) :=
  match client with
  | none => .error (.attributeError "NoneType object has no attribute close")
  | some _ => .ok none

/-- Model of `AuthenticatedCursor.__exit__`: closes only when `_client` is not `None`
(the log-on-exception branch carries no state). -/
def AuthenticatedCursor.exitCtx {Client : Type} (client : ClientRef Client) :
    Except PyErr (ClientRef Client) :=
  match client with
  | none => .ok none
  | some c => AuthenticatedCursor.close (some c)

/-! ### Reader query/projection translation (`MongoReader._find`) -/

/-- A MongoDB filter document, kept abstract: `_find` only ever passes it
through or replaces `None` by the match-all document `{}`. -/
abbrev Query := List (String × String)

/-- The match-all filter `{}`. -/
def matchAll : Query := []

/-- Python-dict insert on an association list: overwrite in place when the
key exists, append otherwise. -/
def dictSet (d : List (String × Nat)) (k : String) (v : Nat) : List (String × Nat) :=
  match d with
  | [] => [(k, v)]
  | (k', v') :: rest => if k' = k then (k, v) :: rest else (k', v') :: dictSet rest k v

/-- Key lookup on an association list (Python dict `in` / subscript). -/
def dictGet (d : List (String × Nat)) (k : String) : Option Nat :=
  match d with
  | [] => none
  | (k', v') :: rest => if k' = k then some v' else dictGet rest k

/-- The `(query, fields)` pair `MongoReader._find` hands to
`pymongo.Collection.find`: a `None` query becomes `{}`; a field list becomes
`{field: 1 for field in fields}`; when `include_id` is `False` and `"_id"` is
not among the keys, `fields["_id"] = 0` is added. -/
def MongoReader.findArgs (include_id : Bool) (query : Option Query)
    (fields : Option (List String)) : Query × List (String × Nat) :=
  let query := match query with
    | none => matchAll
    | some q => q
  let fieldsDict := match fields with
    | none => []
    | some l => l.foldl (fun d field => dictSet d field 1) []
  let fieldsDict :=
    if include_id = false ∧ dictGet fieldsDict "_id" = none then
      dictSet fieldsDict "_id" 0
    else fieldsDict
  (query, fieldsDict)

/-! ### MongoDB database model and the `MongoWriter` operations

A database is an association list from collection names to document lists.
Documents are abstract (`Doc` is a type parameter): the writer never inspects
them end-to-end, and a mid-bulk server failure is injected through an explicit
`failAt` parameter instead. -/

/-- A MongoDB database: the collections it holds, by name. -/
abbrev Db (Doc : Type) := List (String × List Doc)

/-- The documents of collection `n`, or `none` when no such collection
exists. -/
def getColl {Doc : Type} (db : Db Doc) (n : String) : Option (List Doc) :=
  match db with
  | [] => none
  | (n', docs) :: rest => if n' = n then some docs else getColl rest n

/-- Whether collection `n` exists. -/
def hasColl {Doc : Type} (db : Db Doc) (n : String) : Bool :=
  (getColl db n).isSome

/-- Model of `db.drop_collection(n)`: a no-op when the collection does not exist. -/
def dropColl {Doc : Type} (db : Db Doc) (n : String) : Db Doc :=
  match db with
  | [] => []
  | (n', docs) :: rest => if n' = n then dropColl rest n else (n', docs) :: dropColl rest n

/-- Replace (or create) collection `n` with contents `docs`. -/
def setColl {Doc : Type} (db : Db Doc) (n : String) (docs : List Doc) : Db Doc :=
  dropColl db n ++ [(n, docs)]

/-- Model of `Collection.rename(dst)` server semantics: the source must exist, the
target namespace must be free, and source and target must differ. -/
def renameColl {Doc : Type} (db : Db Doc) (src dst : String) :
    Except PyErr (Db Doc) :=
  if src = dst then .error (.operationFailure "source and target namespaces must differ")
  else
    match getColl db src with
    | none => .error (.operationFailure "source namespace does not exist")
    | some docs =>
      if hasColl db dst then .error (.operationFailure "target namespace exists")
      else .ok (setColl (dropColl db src) dst docs)

/-- Model of `db.create_collection(n)`: fails when the collection already exists. -/
def createColl {Doc : Type} (db : Db Doc) (n : String) : Except PyErr (Db Doc) :=
  if hasColl db n then .error (.operationFailure "collection already exists")
  else .ok (setColl db n [])

/-- One operation of an ordered `bulk_write` request, as built by the
writer: `pymongo.DeleteMany({})` or `pymongo.InsertOne(doc)`. -/
inductive BulkOp (Doc : Type) where
  | deleteMany
  | insertOne (d : Doc)

/-- Apply one bulk operation to a collection's documents. -/
def applyOp {Doc : Type} (docs : List Doc) : BulkOp Doc → List Doc
  | .deleteMany => []
  | .insertOne d => docs ++ [d]

/-- Apply a list of bulk operations in order. -/
def applyOps {Doc : Type} (docs : List Doc) (ops : List (BulkOp Doc)) : List Doc :=
  ops.foldl applyOp docs

/-- Ordered `bulk_write` with an injected failure point: an empty request
raises `InvalidOperation("No operations to execute")` client-side with
nothing written; otherwise, when `failAt = some k` with `k < ops.length`, the
first `k` operations are applied and the server then raises; the error
carries the partly-written contents. -/
def bulkWrite {Doc : Type} (docs : List Doc) (ops : List (BulkOp Doc))
    (failAt : Option Nat) : Except (PyErr × List Doc) (List Doc) :=
  -- pymongo refuses an empty request client-side, before any write
  if ops.isEmpty then
    .error (.invalidOperation "No operations to execute", docs)
  else
    match failAt with
    | some k =>
      if k < ops.length then .error (.bulkWriteError, applyOps docs (ops.take k))
      else .ok (applyOps docs ops)
    | none => .ok (applyOps docs ops)

/-- The observable outcome of one writer call: the database afterwards, and
the exception that propagated to the caller, if any. -/
structure RunResult (Doc : Type) where
  db : Db Doc
  err : Option PyErr

/-- The name of the backup collection for target `name`. -/
def backupName (name : String) : String := name ++ "_backup"

/-- Model of `MongoWriter.drop_all_and_insert(data, preserve_backup)` on a database
where the writer's collection is `name`, transcribed line by line:

1. `self.collection.rename(f"{name}_backup")`;
2. `cursor.db.create_collection(name)`;
3. `bulk_write([DeleteMany({}), InsertOne(d) for d in data])` on the (fresh)
   target, failing at `failAt` if given;
4. on success, drop the backup unless `preserve_backup`;
5. on a bulk exception, the handler runs
   `self.collection.rename(self.collection.name)` — a rename of the target
   onto its own name — then would drop the backup and re-raise; any exception
   the handler itself raises propagates instead. -/
def drop_all_and_insert {Doc : Type} (db : Db Doc) (name : String)
    (data : List Doc) (preserve_backup : Bool) (failAt : Option Nat) :
    RunResult Doc :=
  match renameColl db name (backupName name) with
  | .error e => ⟨db, some e⟩
  | .ok db1 =>
    match createColl db1 name with
    | .error e => ⟨db1, some e⟩
    | .ok db2 =>
      let ops : List (BulkOp Doc) := .deleteMany :: data.map .insertOne
      match bulkWrite ((getColl db2 name).getD []) ops failAt with
      | .ok docs =>
        let db3 := setColl db2 name docs
        if preserve_backup = false then ⟨dropColl db3 (backupName name), none⟩
        else ⟨db3, none⟩
      | .error (e, written) =>
        let db3 := setColl db2 name written
        -- except-branch: `self.collection.rename(self.collection.name)`
        match renameColl db3 name name with
        | .error e2 => ⟨db3, some e2⟩
        | .ok db4 => ⟨dropColl db4 (backupName name), some e⟩

/-- Model of `MongoWriter.insert(data, preserve_backup)` on a database where the
writer's collection is `name`, transcribed line by line:

1. `self.collection.aggregate([{"$out": f"{name}_backup"}])` mirrors the
   target's current contents into the backup (creating or replacing it);
2. `bulk_write([InsertOne(d) for d in data])` on the target, failing at
   `failAt` if given;
3. on success, drop the backup unless `preserve_backup`;
4. on a bulk exception, drop the target, rename the backup back to the
   target name, and re-raise the original exception. -/
def MongoWriter.insert {Doc : Type} (db : Db Doc) (name : String)
    (data : List Doc) (preserve_backup : Bool) (failAt : Option Nat) :
    RunResult Doc :=
  let db1 := setColl db (backupName name) ((getColl db name).getD [])
  let ops : List (BulkOp Doc) := data.map .insertOne
  match bulkWrite ((getColl db1 name).getD []) ops failAt with
  | .ok docs =>
    let db2 := setColl db1 name docs
    if preserve_backup = false then ⟨dropColl db2 (backupName name), none⟩
    else ⟨db2, none⟩
  | .error (e, written) =>
    let db2 := setColl db1 name written
    let db3 := dropColl db2 name
    match renameColl db3 (backupName name) name with
    | .error e2 => ⟨db3, some e2⟩
    | .ok db4 => ⟨db4, some e⟩

/-! ## Helper lemmas about the database model -/

theorem getColl_drop_set_self {Doc : Type} (db : Db Doc) (n : String) (docs : List Doc) :
    getColl (dropColl db n ++ [(n, docs)]) n = some docs := by
  induction db with
  | nil => simp [getColl]
  | cons p rest ih =>
    obtain ⟨a, b⟩ := p
    by_cases ha : a = n <;> simp [dropColl, getColl, ha, ih]

theorem getColl_setColl_self {Doc : Type} (db : Db Doc) (n : String) (docs : List Doc) :
    getColl (setColl db n docs) n = some docs :=
  getColl_drop_set_self db n docs

theorem getColl_dropColl_ne {Doc : Type} (db : Db Doc) {n m : String} (h : m ≠ n) :
    getColl (dropColl db n) m = getColl db m := by
  induction db with
  | nil => rfl
  | cons p rest ih =>
    obtain ⟨a, b⟩ := p
    by_cases ha : a = n
    · subst ha
      simp [dropColl, getColl, Ne.symm h, ih]
    · by_cases ham : a = m <;> simp [dropColl, getColl, ha, ham, ih, h]

theorem getColl_setColl_ne {Doc : Type} (db : Db Doc) {n m : String}
    (docs : List Doc) (h : m ≠ n) :
    getColl (setColl db n docs) m = getColl db m := by
  rw [setColl]
  have : getColl (dropColl db n ++ [(n, docs)]) m = getColl (dropColl db n) m := by
    induction (dropColl db n) with
    | nil => simp [getColl, Ne.symm h]
    | cons p rest ih =>
      obtain ⟨a, b⟩ := p
      by_cases ham : a = m <;> simp [getColl, ham, ih]
  rw [this, getColl_dropColl_ne db h]

theorem getColl_dropColl_self {Doc : Type} (db : Db Doc) (n : String) :
    getColl (dropColl db n) n = none := by
  induction db with
  | nil => rfl
  | cons p rest ih =>
    obtain ⟨a, b⟩ := p
    by_cases ha : a = n <;> simp [dropColl, getColl, ha, ih]

theorem backupName_ne (n : String) : backupName n ≠ n := by
  intro h
  have h2 := congrArg String.length h
  rw [backupName, String.length_append] at h2
  have h7 : "_backup".length = 7 := rfl
  omega

theorem applyOps_insertOnes {Doc : Type} (S data : List Doc) :
    applyOps S (data.map .insertOne) = S ++ data := by
  induction data generalizing S with
  | nil => simp [applyOps]
  | cons d rest ih =>
    simp only [List.map_cons, applyOps, List.foldl_cons] at *
    rw [show applyOp S (BulkOp.insertOne d) = S ++ [d] from rfl, ih]
    simp

/-- C3. Append mode: with backup preservation off, a successful `insert` on a
target holding `S` (success requires a non-empty `data`) leaves the target
containing exactly `S ++ data` with no backup collection remaining; if the
bulk write raises after `k < |data|` inserts, the target is dropped, the
backup is renamed back (restoring exactly `S`, with no backup left), and the
original exception is re-raised. With `data = []`, pymongo's `bulk_write`
itself raises `InvalidOperation("No operations to execute")`, the same
rollback runs (restoring `S`, no backup left), and that exception is
re-raised. -/
theorem C3_append (Doc : Type) (db : Db Doc) (name : String) (S data : List Doc)
    (hS : getColl db name = some S) :
    (data ≠ [] →
      getColl (MongoWriter.insert db name data false none).db name = some (S ++ data) ∧
      getColl (MongoWriter.insert db name data false none).db (backupName name) = none ∧
      (MongoWriter.insert db name data false none).err = none) ∧
    (∀ k, k < data.length →
      getColl (MongoWriter.insert db name data false (some k)).db name = some S ∧
      getColl (MongoWriter.insert db name data false (some k)).db (backupName name) = none ∧
      (MongoWriter.insert db name data false (some k)).err = some .bulkWriteError) ∧
    (∀ failAt,
      getColl (MongoWriter.insert db name ([] : List Doc) false failAt).db name = some S ∧
      getColl (MongoWriter.insert db name ([] : List Doc) false failAt).db
        (backupName name) = none ∧
      (MongoWriter.insert db name ([] : List Doc) false failAt).err =
        some (.invalidOperation "No operations to execute")) := by
  have hne : name ≠ backupName name := (backupName_ne name).symm
  have h1 : getColl (setColl db (backupName name) S) name = some S := by
    rw [getColl_setColl_ne db S hne, hS]
  have h2 : ∀ written : List Doc, getColl
      (dropColl (setColl (setColl db (backupName name) S) name written) name)
      (backupName name) = some S := fun written => by
    rw [getColl_dropColl_ne _ (backupName_ne name),
      getColl_setColl_ne _ _ (backupName_ne name), getColl_setColl_self]
  have h3 : ∀ written : List Doc, getColl
      (dropColl (setColl (setColl db (backupName name) S) name written) name)
      name = none := fun written => getColl_dropColl_self _ name
  refine ⟨?_, ?_, ?_⟩
  · intro hdata
    have hemp : (data.map (@BulkOp.insertOne Doc)).isEmpty = false := by
      cases data with
      | nil => exact absurd rfl hdata
      | cons a l => rfl
    simp only [MongoWriter.insert, hS, Option.getD_some, h1, bulkWrite, hemp,
      Bool.false_eq_true, if_false, applyOps_insertOnes, if_true]
    refine ⟨?_, ?_, trivial⟩
    · rw [getColl_dropColl_ne _ hne, getColl_setColl_self]
    · rw [getColl_dropColl_self]
  · intro k hk
    have hemp : (data.map (@BulkOp.insertOne Doc)).isEmpty = false := by
      cases data with
      | nil => simp at hk
      | cons a l => rfl
    have hk' : k < (data.map (@BulkOp.insertOne Doc)).length := by
      simpa using hk
    simp only [MongoWriter.insert, hS, Option.getD_some, h1, bulkWrite, hemp,
      Bool.false_eq_true, if_false, hk', if_true, renameColl,
      if_neg (backupName_ne name), h2 _, hasColl, h3 _,
      Option.isSome_none, Bool.false_eq_true]
    refine ⟨?_, ?_, trivial⟩
    · rw [getColl_setColl_self]
    · rw [getColl_setColl_ne _ _ (backupName_ne name), getColl_dropColl_self]
  · intro failAt
    simp only [MongoWriter.insert, hS, Option.getD_some, h1, List.map_nil,
      bulkWrite, List.isEmpty_nil, if_true, renameColl,
      if_neg (backupName_ne name), h2 _, hasColl, h3 _,
      Option.isSome_none, Bool.false_eq_true, if_false]
    refine ⟨?_, ?_, trivial⟩
    · rw [getColl_setColl_self]
    · rw [getColl_setColl_ne _ _ (backupName_ne name), getColl_dropColl_self]

/-- Witness for `C3_append` at concrete inputs, covering the success, the
induced-failure and the empty-input regimes. -/
theorem C3_append_witness :
    (getColl (MongoWriter.insert [("c", [1])] "c" [2] false none).db "c" = some ([1] ++ [2]) ∧
      getColl (MongoWriter.insert [("c", [1])] "c" [2] false none).db (backupName "c") = none ∧
      (MongoWriter.insert [("c", [1])] "c" [2] false none).err = none) ∧
    (getColl (MongoWriter.insert [("c", [1])] "c" [2] false (some 0)).db "c" = some [1] ∧
      getColl (MongoWriter.insert [("c", [1])] "c" [2] false (some 0)).db (backupName "c") = none ∧
      (MongoWriter.insert [("c", [1])] "c" [2] false (some 0)).err = some .bulkWriteError) ∧
    (getColl (MongoWriter.insert [("c", [1])] "c" ([] : List Nat) false none).db "c" = some [1] ∧
      getColl (MongoWriter.insert [("c", [1])] "c" ([] : List Nat) false none).db
        (backupName "c") = none ∧
      (MongoWriter.insert [("c", [1])] "c" ([] : List Nat) false none).err =
        some (.invalidOperation "No operations to execute")) := by
  have h := C3_append Nat [("c", [1])] "c" [1] [2] (by decide)
  exact ⟨h.1 (by decide), h.2.1 0 (by decide), h.2.2 none⟩

/-- C1. Evaluation of `drop_all_and_insert` at a failing input: target `"c"`
holds `[1, 2]`, the bulk write of `[3, 4]` raises right after its `DeleteMany`
step. Contrary to the claim, the handler's `self.collection.rename(self.collection.name)`
is a rename of the (empty) target onto its own name, which the server rejects:
the backup collection `"c_backup"` is left behind, the target is left empty
rather than restored to `[1, 2]`, and the exception that propagates is the
rename failure, not the original bulk-write error. -/
theorem C1_drop_all_rollback_is_broken :
    (drop_all_and_insert [("c", [1, 2])] "c" [3, 4] false (some 1)).err =
      some (.operationFailure "source and target namespaces must differ") ∧
    (drop_all_and_insert [("c", [1, 2])] "c" [3, 4] false (some 1)).err ≠
      some .bulkWriteError ∧
    getColl (drop_all_and_insert [("c", [1, 2])] "c" [3, 4] false (some 1)).db "c" ≠
      some [1, 2] ∧
    getColl (drop_all_and_insert [("c", [1, 2])] "c" [3, 4] false (some 1)).db
      (backupName "c") = some [1, 2] := by
  refine ⟨rfl, by decide, by decide, rfl⟩

/-- C2. Evaluation of a failing `drop_all_and_insert` write attempt at target
`"d"` holding `[5]` with input `[7]`: after the call raises, the backup
collection still exists while the target holds neither the new data `[7]` nor
the restored pre-write data `[5]` — neither arm of the claimed two-state
invariant holds. -/
theorem C2_invariant_violated :
    (drop_all_and_insert [("d", [5])] "d" [7] false (some 0)).err.isSome = true ∧
    hasColl (drop_all_and_insert [("d", [5])] "d" [7] false (some 0)).db
      (backupName "d") = true ∧
    getColl (drop_all_and_insert [("d", [5])] "d" [7] false (some 0)).db "d" ≠
      some [7] ∧
    getColl (drop_all_and_insert [("d", [5])] "d" [7] false (some 0)).db "d" ≠
      some [5] := by
  refine ⟨rfl, rfl, by decide, by decide⟩

/-- C6 counterexample: closing an unopened handle is not a no-op — the
attribute access `self._client.close()` on `None` raises `AttributeError`. -/
theorem C6_counterexample :
    AuthenticatedCursor.close (none : ClientRef Unit) =
      .error (.attributeError "NoneType object has no attribute close") ∧
    AuthenticatedCursor.close (none : ClientRef Unit) ≠ .ok none :=
  ⟨rfl, fun h => Except.noConfusion h⟩

/-- C6 (amended). Closing an opened handle closes the client and clears the
reference; closing an unopened handle (client reference `None`) raises
`AttributeError` with the handle state unchanged — the `None` guard lives
only in the context-manager `__exit__`, which is a no-op on an unopened
handle. -/
theorem C6_close_behavior (Client : Type) (c : Client) :
    AuthenticatedCursor.close (some c) = .ok none ∧
    AuthenticatedCursor.close (none : ClientRef Client) =
      .error (.attributeError "NoneType object has no attribute close") ∧
    AuthenticatedCursor.exitCtx (none : ClientRef Client) = .ok none :=
  ⟨rfl, rfl, rfl⟩

theorem isAlwaysSafe_lt_128 {b : Nat} (hb : isAlwaysSafe b = true) : b < 128 := by
  simp only [isAlwaysSafe, Bool.or_eq_true, Bool.and_eq_true, decide_eq_true_eq,
    beq_iff_eq] at hb
  omega

theorem quotePlusByte_safe {b : Nat} (hb : isAlwaysSafe b = true) :
    quotePlusByte b = [Char.ofNat b] := by
  have h32 : b ≠ 32 := by
    intro h
    subst h
    simp [isAlwaysSafe] at hb
  simp [quotePlusByte, h32, hb]

theorem quote_plus_safe_chars : ∀ (l : List Char),
    (∀ ch ∈ l, isAlwaysSafe ch.toNat = true) →
    (((l.map utf8Bytes).flatten).map quotePlusByte).flatten = l
  | [], _ => rfl
  | c :: rest, h => by
    have hc : isAlwaysSafe c.toNat = true := h c (List.mem_cons_self c rest)
    have hu : utf8Bytes c = [c.toNat] := by
      simp [utf8Bytes, isAlwaysSafe_lt_128 hc]
    have hrec := quote_plus_safe_chars rest
      (fun ch hm => h ch (List.mem_cons_of_mem c hm))
    simp only [List.map_cons, List.flatten_cons, hu, List.singleton_append,
      quotePlusByte_safe hc, List.cons_append, List.nil_append,
      Char.ofNat_toNat, hrec]

/-- C7. Connection-string construction: for every (username, password,
cluster) triple the URI is exactly
`mongodb+srv://<quoted user>:<quoted pass>@<cluster>.sln0w.mongodb.net/?retryWrites=true&w=majority`,
where username and password go through `quote_plus` (identity on safe
characters, `%XX`/`+` escaping otherwise) and the cluster is spliced in
verbatim, unencoded — shown both in general and on inputs with special
characters. -/
theorem C7_uri_shape :
    (∀ c u p, _create_uri c u p =
      "mongodb+srv://" ++ quote_plus u ++ ":" ++ quote_plus p ++ "@" ++ c ++
        ".sln0w.mongodb.net/?retryWrites=true&w=majority") ∧
    (∀ s : String, (∀ ch ∈ s.data, isAlwaysSafe ch.toNat = true) →
      quote_plus s = s) ∧
    quote_plus "u@s r:/%" = "u%40s+r%3A%2F%25" ∧
    _create_uri "cl@st er" "user" "pass" =
      "mongodb+srv://user:pass@cl@st er.sln0w.mongodb.net/?retryWrites=true&w=majority" := by
  refine ⟨fun c u p => rfl, ?_, rfl, rfl⟩
  intro s hs
  rw [quote_plus, quote_plus_safe_chars s.data hs]

/-- Witness for `C7_uri_shape` at a concrete safe string. -/
theorem C7_uri_shape_witness : quote_plus "test_user.2-b~" = "test_user.2-b~" :=
  C7_uri_shape.2.1 "test_user.2-b~" (by decide)

theorem dictGet_dictSet (d : List (String × Nat)) (k k' : String) (v : Nat) :
    dictGet (dictSet d k v) k' = if k' = k then some v else dictGet d k' := by
  induction d with
  | nil =>
    by_cases hk : k' = k
    · subst hk; simp [dictSet, dictGet]
    · simp [dictSet, dictGet, hk, Ne.symm hk]
  | cons p rest ih =>
    obtain ⟨a, b⟩ := p
    by_cases hak : a = k
    · subst hak
      by_cases hk : k' = a
      · subst hk; simp [dictSet, dictGet]
      · simp [dictSet, dictGet, hk, Ne.symm hk]
    · by_cases hak' : a = k'
      · subst hak'
        have hk : ¬(a = k) := hak
        simp [dictSet, dictGet, hak, hk]
      · by_cases hk : k' = k
        · subst hk
          simp [dictSet, dictGet, hak, hak', ih]
        · simp [dictSet, dictGet, hak, hak', hk, ih]

theorem dictGet_foldl_ones (l : List String) (acc : List (String × Nat)) (key : String) :
    dictGet (l.foldl (fun d field => dictSet d field 1) acc) key =
      if key ∈ l then some 1 else dictGet acc key := by
  induction l generalizing acc with
  | nil => simp
  | cons f rest ih =>
    simp only [List.foldl_cons, ih, dictGet_dictSet, List.mem_cons]
    by_cases hk : key ∈ rest
    · simp [hk]
    · by_cases hf : key = f <;> simp [hk, hf]

/-- C8. Reader translation in `MongoReader._find`: a `None` query becomes the
match-all query `{}`; a field list becomes an inclusion projection mapping
each listed field to `1`; and when `include_id` is off, `_id ↦ 0` is added
exactly when `"_id"` is not among the requested fields — stated through the
lookup function of the produced projection document. -/
theorem C8_find_translation (include_id : Bool) (query : Option Query)
    (fields : Option (List String)) (key : String) :
    (MongoReader.findArgs include_id query fields).1 = query.getD matchAll ∧
    dictGet (MongoReader.findArgs include_id query fields).2 key =
      (if key ∈ fields.getD [] then some 1
       else if include_id = false ∧ key = "_id" then some 0 else none) := by
  constructor
  · cases query <;> rfl
  · cases fields with
    | none =>
      cases include_id with
      | false =>
        by_cases hk : key = "_id" <;>
          simp [MongoReader.findArgs, dictGet, dictSet, hk, Ne.symm, eq_comm]
      | true => simp [MongoReader.findArgs, dictGet]
    | some l =>
      by_cases hmem : "_id" ∈ l
      · by_cases hkey : key ∈ l
        · simp [MongoReader.findArgs, dictGet_foldl_ones, hmem, hkey, dictGet]
        · have hne : ¬(include_id = false ∧ key = "_id") := by
            rintro ⟨-, rfl⟩; exact hkey hmem
          simp [MongoReader.findArgs, dictGet_foldl_ones, hmem, hkey, hne, dictGet]
      · cases include_id with
        | true => simp [MongoReader.findArgs, dictGet_foldl_ones, dictGet]
        | false =>
          have hid : dictGet (l.foldl (fun d field => dictSet d field 1) []) "_id" =
              none := by
            simp [dictGet_foldl_ones, hmem, dictGet]
          simp only [MongoReader.findArgs, Option.getD_some]
          rw [if_pos ⟨trivial, hid⟩]
          by_cases hk : key = "_id"
          · subst hk
            simp [dictGet_dictSet, dictGet_foldl_ones, hmem, dictGet]
          · simp [dictGet_dictSet, dictGet_foldl_ones, hk, dictGet]

/-! ## Interpolation on percent-free values is the identity -/

theorem stripDoublePercent_no_pct : ∀ {l : List Char}, '%' ∉ l → stripDoublePercent l = l
  | [], _ => rfl
  | [_], _ => rfl
  | c :: d :: rest, h => by
    have hc : ¬(c = '%' ∧ d = '%') := by
      rintro ⟨rfl, -⟩
      exact h (List.mem_cons_self _ _)
    have hrest : '%' ∉ d :: rest := fun hm => h (List.mem_cons_of_mem c hm)
    simp only [stripDoublePercent, if_neg hc]
    rw [stripDoublePercent_no_pct hrest]

theorem stripRefsAux_no_pct : ∀ (fuel : Nat) {l : List Char}, '%' ∉ l →
    stripRefsAux fuel l = l
  | 0, _, _ => rfl
  | _ + 1, [], _ => rfl
  | fuel + 1, c :: rest, h => by
    have hc : ¬(c = '%') := by
      rintro rfl
      exact h (List.mem_cons_self _ _)
    have hrest : '%' ∉ rest := fun hm => h (List.mem_cons_of_mem c hm)
    simp only [stripRefsAux, if_neg hc]
    rw [stripRefsAux_no_pct fuel hrest]

theorem beforeSetOk_no_pct {v : String} (h : '%' ∉ v.data) : beforeSetOk v = true := by
  rw [beforeSetOk, stripDoublePercent_no_pct h, stripRefs, stripRefsAux_no_pct _ h]
  simpa using h

theorem interpolateSome_cons_ne (sec : Sec) (depth : Nat) {c : Char} (hc : ¬(c = '%'))
    (rest : List Char) :
    interpolateSome sec depth (c :: rest) =
      match interpolateSome sec depth rest with
      | .error e => .error e
      | .ok t => .ok (c :: t) := by
  rw [interpolateSome.eq_def]
  simp [hc]

theorem interpolateSome_no_pct (sec : Sec) (depth : Nat) :
    ∀ {l : List Char}, '%' ∉ l → interpolateSome sec depth l = .ok l
  | [], _ => by simp [interpolateSome]
  | c :: rest, h => by
    have hc : ¬(c = '%') := by
      rintro rfl
      exact h (List.mem_cons_self _ _)
    have hrest : '%' ∉ rest := fun hm => h (List.mem_cons_of_mem c hm)
    rw [interpolateSome_cons_ne sec depth hc rest,
      interpolateSome_no_pct sec depth hrest]

/-! ## Section store lemmas -/

theorem secGet_secSet_self (s : Sec) (k v : String) : secGet (secSet s k v) k = some v := by
  induction s with
  | nil => simp [secSet, secGet]
  | cons p rest ih =>
    obtain ⟨a, b⟩ := p
    by_cases hak : a = k <;> simp [secSet, secGet, hak, ih]

theorem secGet_secSet_ne (s : Sec) {k k' : String} (v : String) (h : k' ≠ k) :
    secGet (secSet s k v) k' = secGet s k' := by
  induction s with
  | nil => simp [secSet, secGet, h, Ne.symm h]
  | cons p rest ih =>
    obtain ⟨a, b⟩ := p
    by_cases hak : a = k
    · subst hak
      simp [secSet, secGet, Ne.symm h, ih]
    · by_cases hak' : a = k' <;> simp [secSet, secGet, hak, hak', ih, h]

theorem getMongoOption_of_get {sec : Sec} {k v : String}
    (hget : secGet sec (optionxform k) = some v) (hv : '%' ∉ v.data) :
    getMongoOption (some sec) k = .ok v := by
  simp [getMongoOption, hget, interpolateSome_no_pct sec 1 hv]

theorem optionxform_username : optionxform "MONGO_USERNAME" = "mongo_username" := rfl

theorem optionxform_password : optionxform "MONGO_PASSWORD" = "mongo_password" := rfl

theorem optionxform_cluster : optionxform "MONGO_CLUSTER" = "mongo_cluster" := rfl

theorem optionxform_db : optionxform "MONGO_DB" = "mongo_db" := rfl

/-- C9. When username, password and cluster are all supplied, credential
resolution returns exactly that triple without consulting the config store:
the result is the same for every store state, config file present or not. -/
theorem C9_args_shadow_store (u p c : String) (f1 f2 : ConfigFile) :
    _check_credentials f1 (some u) (some p) (some c) = .ok ⟨u, p, c⟩ ∧
    _check_credentials f1 (some u) (some p) (some c) =
      _check_credentials f2 (some u) (some p) (some c) := by
  constructor <;> simp [_check_credentials]

/-- C10. `set_config` creates the `[MONGODB]` section only when the config
file does not exist (first conjunct: a fresh file gets the section and the
value); when the file exists without that section and any field is supplied,
`config["MONGODB"]` raises `KeyError` instead of creating the section
(second conjunct). -/
theorem C10_no_section_keyerror (v : String) (hv : '%' ∉ v.data) :
    set_config none (some v) none none none =
      .ok (some (some [("mongo_username", v)])) ∧
    (∀ (username password cluster db : Option String),
      username ≠ none ∨ password ≠ none ∨ cluster ≠ none ∨ db ≠ none →
      set_config (some none) username password cluster db =
        .error (.keyError "MONGODB")) := by
  constructor
  · simp [set_config, secSetChecked, beforeSetOk_no_pct hv, secSet,
      optionxform_username]
  · intro username password cluster db h
    rcases username with _ | u
    · rcases password with _ | p
      · rcases cluster with _ | c
        · rcases db with _ | d
          · simp at h
          · rfl
        · rfl
      · rfl
    · rfl

/-- Witness for `C10_no_section_keyerror` at concrete inputs. -/
theorem C10_no_section_keyerror_witness :
    set_config none (some "user") none none none =
      .ok (some (some [("mongo_username", "user")])) ∧
    set_config (some none) (some "user") none none none =
      .error (.keyError "MONGODB") :=
  ⟨(C10_no_section_keyerror "user" (by decide)).1,
    (C10_no_section_keyerror "user" (by decide)).2 (some "user") none none none
      (by simp)⟩

theorem secGet_mem {s : Sec} {k v : String} (h : secGet s k = some v) : (k, v) ∈ s := by
  induction s with
  | nil => simp [secGet] at h
  | cons p rest ih =>
    obtain ⟨a, b⟩ := p
    by_cases hak : a = k
    · subst hak
      have hb : b = v := by simpa [secGet] using h
      subst hb
      exact List.mem_cons_self _ _
    · simp only [secGet, if_neg hak] at h
      exact List.mem_cons_of_mem _ (ih h)

theorem secGet_readSec (s : Sec) (k : String) :
    secGet (readSec s) k = (secGet s k).map fileRoundTrip := by
  induction s with
  | nil => rfl
  | cons p rest ih =>
    obtain ⟨a, b⟩ := p
    have hstep : readSec ((a, b) :: rest) = (a, fileRoundTrip b) :: readSec rest := rfl
    rw [hstep]
    by_cases hak : a = k <;> simp [secGet, hak, ih]

theorem checkConfigField_spec (sec : Sec) (key field : String) (given : Option String)
    (hclean : ∀ kv ∈ sec, '%' ∉ (kv.2 : String).data ∧ serializationClean kv.2) :
    checkConfigField (some (readSec sec)) key field given =
      resolveSpecField sec given key field := by
  cases given with
  | some v => rfl
  | none =>
    simp only [checkConfigField, resolveSpecField, hasOptionMongo, secGet_readSec]
    cases hk : secGet sec (optionxform key) with
    | none => simp [hk]
    | some v =>
      have hv := hclean _ (secGet_mem hk)
      simp [hk, getMongoOption, secGet_readSec, hv.2.2,
        interpolateSome_no_pct _ 1 hv.1]

